import Mathlib

/-!
Verification development for the `xgenerator` component of xtensor
(`include/xtensor/xgenerator.hpp`).

The generator is shallowly embedded: the variadic coordinate argument pack of
the C++ template member functions becomes a `List Nat` of coordinates (the
coordinates are unsigned integers in the source), the functor `m_f` becomes a
Lean function `List Nat → α`, and the stored shape `m_shape` becomes a
`List Nat`.  All operations of the source are pure, so each member function is
a plain Lean function of the generator value.  Debug-only checks
(`XTENSOR_TRY`, which is a no-op unless assertions are enabled) are omitted in
the model of `operator()`, matching release semantics; the `XTENSOR_ASSERT`
inside `compute_shape` is modelled as a fatal failure (`none`), matching the
assertion-level error class described for reshape.
-/

/-- The xgenerator: owns an index functor `f` and a shape `shape`
(fields `m_f` and `m_shape` of the C++ class). -/
structure XGenerator (α : Type) where
  f : List Nat → α
  shape : List Nat

/-- Layout enumeration; the generator always reports `dynamic`. -/
inductive LayoutType where
  | dynamic
  | row_major
  | column_major
  | any
  deriving DecidableEq, Repr

namespace XGenerator

variable {α β : Type}

/-- `dimension()` of the generator: `m_shape.size()`. -/
def dimension (g : XGenerator α) : Nat :=
  g.shape.length

/-- Modelled from the spec: the external `compute_size(shape)` primitive used
by `size()` is not part of the analysed source file; the spec describes it as
the product of the extents (`std::accumulate` with multiplication starting
from 1). -/
def compute_size (shape : List Nat) : Nat :=
  shape.foldl (· * ·) 1

/-- `size()` of the generator: `compute_size(shape())`. -/
def size (g : XGenerator α) : Nat :=
  compute_size g.shape

/-- `layout()` of the generator: always `static_layout`, i.e. dynamic. -/
def layout (_g : XGenerator α) : LayoutType :=
  LayoutType.dynamic

/-- The adaptation applied to one coordinate at dimension `dim` by
`adapt_index`: `if (arg >= m_shape[dim] && m_shape[dim] == 1) arg = 0;`. -/
def adapt1 (s c : Nat) : Nat :=
  if s ≤ c ∧ s = 1 then 0 else c

/-- `adapt_index<dim>(args...)` of the source: while the remaining argument
count exceeds `m_shape.size()` the front argument is skipped unmodified (the
recursion keeps the same `dim`); once the remaining count fits, the argument
at template position `dim` is broadcast-adapted and the recursion continues
with `dim + 1`. -/
def adapt_index (shape : List Nat) : Nat → List Nat → List Nat
  | _, [] => []
  | dim, arg :: args =>
    if shape.length < args.length + 1 then
      arg :: adapt_index shape dim args
    else
      adapt1 (shape.getD dim 0) arg :: adapt_index shape (dim + 1) args

/-- `operator()(args...)`: adapts the index pack in place with
`adapt_index<0>(args...)` and then invokes the functor on the (entire,
possibly longer than `dimension()`) adapted pack: `return m_f(args...);`.
The `XTENSOR_TRY(check_index(...))` debug check is a release no-op. -/
def op (g : XGenerator α) (args : List Nat) : α :=
  g.f (adapt_index g.shape 0 args)

/-- `unchecked(args...)`: invokes the functor directly on the raw pack. -/
def unchecked (g : XGenerator α) (args : List Nat) : α :=
  g.f args

/-- Modelled from the spec: the external `check_access` primitive used by
`at(...)` is not part of the analysed source file; the spec describes it as
failing with an out-of-range error when the coordinate count is less than
`dimension()`, or when some coordinate is `>= shape[d]` at a dimension `d`
whose extent is not 1 (coordinates are aligned to the trailing dimensions). -/
def check_access (shape args : List Nat) : Bool :=
  decide (shape.length ≤ args.length ∧
    ∀ d, d < shape.length →
      (args.drop (args.length - shape.length)).getD d 0 < shape.getD d 0 ∨
        shape.getD d 0 = 1)

/-- `at(args...)`: `check_access(shape(), args...)` followed by delegation to
`operator()`; the out-of-range failure is modelled as `none`. -/
def at_access (g : XGenerator α) (args : List Nat) : Option α :=
  if check_access g.shape args then some (g.op args) else none

/-- `has_linear_assign(strides)`: `return false;`. -/
def has_linear_assign (_g : XGenerator α) (_strides : List Nat) : Bool :=
  false

/-- `build_generator(func)`: a sibling generator from the new functor and a
copy `shape_type(m_shape)` of the shape. -/
def build_generator (g : XGenerator α) (func : List Nat → β) : XGenerator β :=
  { f := func, shape := g.shape }

end XGenerator

/-- Modelled from the spec: the external `xindexed_stepper` type is not part
of the analysed source file; the spec describes it as constructible from a
generator pointer, a rank offset and an optional end flag. -/
structure XIndexedStepper (α : Type) where
  gen : XGenerator α
  offset : Nat
  is_end : Bool

namespace XGenerator

variable {α : Type}

/-- `stepper_begin(shape)`: offset `shape.size() - dimension()`, no end flag. -/
def stepper_begin (g : XGenerator α) (tshape : List Nat) : XIndexedStepper α :=
  { gen := g, offset := tshape.length - g.dimension, is_end := false }

/-- `stepper_end(shape, layout)`: same offset, end flag set (the layout
argument is ignored by the source). -/
def stepper_end (g : XGenerator α) (tshape : List Nat) (_l : LayoutType) :
    XIndexedStepper α :=
  { gen := g, offset := tshape.length - g.dimension, is_end := true }

end XGenerator

/-- The loop body of `compute_shape(shape, std::true_type)` (the signed
overload).  State: output shape `sh` (a slot is `none` while the
corresponding `sh[j]` has never been assigned), running `accumulator`, and
`neg_idx`.  A negative entry passes through
`XTENSOR_ASSERT(dim == -1 && !neg_idx)` — modelled as `none` (fatal) when the
asserted condition is false — and records its position in `neg_idx`; a
non-negative entry is written to `sh[j]`.  In both branches
`accumulator *= dim`.  The loop counters `i` and `j` start at 0 and advance
together, so a single counter is kept. -/
def csLoop : List Int → Nat → List (Option Nat) → Int → Nat →
    Option (List (Option Nat) × Int × Nat)
  | [], _, sh, acc, ni => some (sh, acc, ni)
  | dim :: rest, j, sh, acc, ni =>
    if dim < 0 then
      if dim = -1 ∧ ni = 0 then csLoop rest (j + 1) sh (acc * dim) j
      else none
    else
      csLoop rest (j + 1) (sh.set j (some dim.toNat)) (acc * dim) ni

/-- `compute_shape(shape, std::true_type)` for a generator of total size
`sz` (`this->size()`): run the loop over the requested shape, then, only when
the accumulator is strictly negative, write
`sh[neg_idx] = size() / abs(accumulator)`. -/
def compute_shape (sz : Nat) (shape : List Int) : Option (List (Option Nat)) :=
  (csLoop shape 0 (List.replicate shape.length none) 1 0).map fun t =>
    if t.2.1 < 0 then t.1.set t.2.2 (some (sz / t.2.1.natAbs)) else t.1

/-- Modelled from the spec: the external reshape-view wrapper returned by
`reshape` wraps the owned generator value and the computed new shape. -/
structure ReshapeView (α : Type) where
  gen : XGenerator α
  view_shape : List (Option Nat)

/-- `reshape(shape)` on a signed shape container: computes the new shape with
`compute_shape` and wraps the generator in a reshape view.  An assertion
failure inside `compute_shape` propagates as `none`. -/
def XGenerator.reshape {α : Type} (g : XGenerator α) (newShape : List Int) :
    Option (ReshapeView α) :=
  (compute_shape g.size newShape).map fun sh => { gen := g, view_shape := sh }

/-- A concrete generator with shape `(3, 1, 4)` and functor
`f(i, j, k) = i * 100 + k` — the scenario used by the spec. -/
def gen314 : XGenerator Nat :=
  { f := fun l => l.getD 0 0 * 100 + l.getD 2 0, shape := [3, 1, 4] }

/-- A concrete generator with shape `(2, 3)`. -/
def gen23 : XGenerator Nat :=
  { f := fun l => l.getD 0 0 * 3 + l.getD 1 0, shape := [2, 3] }

/-- A concrete generator whose functor reports how many coordinates it
received — it distinguishes a truncated argument list from a full one. -/
def genArgCount : XGenerator Nat :=
  { f := fun l => l.length, shape := [1] }

/-- A concrete generator with an empty (zero-dimensional) shape. -/
def genScalar : XGenerator Nat :=
  { f := fun _ => 42, shape := [] }

/-- A concrete generator with a zero extent in its shape. -/
def genZeroExtent : XGenerator Nat :=
  { f := fun _ => 0, shape := [2, 0, 5] }

/-- Claim C7: `has_linear_assign` returns `false` for every stride argument,
on every generator, unconditionally. -/
theorem has_linear_assign_always_false {α : Type} (g : XGenerator α)
    (strides : List Nat) : g.has_linear_assign strides = false :=
  rfl

/-- Claim C8: `build_generator(new_functor)` returns a sibling generator
whose shape is value-equal to the original's shape and whose functor is the
new functor; the original generator is left unchanged (all operations are
pure — the original's fields are untouched). -/
theorem build_generator_preserves_shape {α β : Type} (g : XGenerator α)
    (func : List Nat → β) :
    (g.build_generator func).shape = g.shape ∧
      (g.build_generator func).f = func ∧
      g = ⟨g.f, g.shape⟩ :=
  ⟨rfl, rfl, rfl⟩

/-! ### Helper lemmas about list indexing -/

theorem getD_drop_my {α : Type} (l : List α) (k i : Nat) (d : α) :
    (l.drop k).getD i d = l.getD (k + i) d := by
  induction l generalizing k with
  | nil => simp
  | cons a t ih =>
    cases k with
    | zero => simp
    | succ k =>
      simp only [List.drop_succ_cons, Nat.succ_add, List.getD_cons_succ]
      exact ih k

theorem getD_take_my {α : Type} (l : List α) (k i : Nat) (d : α) (h : i < k) :
    (l.take k).getD i d = l.getD i d := by
  induction l generalizing k i with
  | nil => simp
  | cons a t ih =>
    cases k with
    | zero => omega
    | succ k =>
      cases i with
      | zero => simp
      | succ i =>
        simp only [List.take_succ_cons, List.getD_cons_succ]
        exact ih k i (by omega)

theorem getD_zipWith_my {α β γ : Type} (f : α → β → γ) (l1 : List α)
    (l2 : List β) (i : Nat) (dz : γ) (d1 : α) (d2 : β) (h1 : i < l1.length)
    (h2 : i < l2.length) :
    (List.zipWith f l1 l2).getD i dz = f (l1.getD i d1) (l2.getD i d2) := by
  induction l1 generalizing l2 i with
  | nil => simp at h1
  | cons a t ih =>
    cases l2 with
    | nil => simp at h2
    | cons b u =>
      cases i with
      | zero => simp
      | succ i =>
        simp only [List.zipWith_cons_cons, List.getD_cons_succ]
        exact ih u i (by simpa using h1) (by simpa using h2)

/-- The single-coordinate adaptation, restated: the coordinate becomes 0
exactly when the extent is 1 and the coordinate is at least 1. -/
theorem adapt1_eq (s c : Nat) : XGenerator.adapt1 s c = if s = 1 ∧ 1 ≤ c then 0 else c := by
  by_cases hs : s = 1
  · subst hs
    by_cases hc : 1 ≤ c
    · simp [XGenerator.adapt1, hc]
    · simp [XGenerator.adapt1, hc]
  · simp [XGenerator.adapt1, hs]

/-- When the argument count (starting at template position `dim`) fits inside
the shape, `adapt_index` adapts every argument against the extents starting
at `dim`. -/
theorem adapt_index_core (shape : List Nat) :
    ∀ (args : List Nat) (dim : Nat), dim + args.length ≤ shape.length →
      XGenerator.adapt_index shape dim args =
        List.zipWith (fun c s => XGenerator.adapt1 s c) args (shape.drop dim) := by
  intro args
  induction args with
  | nil =>
    intro dim h
    simp [XGenerator.adapt_index]
  | cons a args ih =>
    intro dim h
    have hc : ¬ (shape.length < args.length + 1) := by
      simp only [List.length_cons] at h
      omega
    have hdim : dim < shape.length := by
      simp only [List.length_cons] at h
      omega
    rw [XGenerator.adapt_index, if_neg hc]
    rw [List.drop_eq_getElem_cons hdim, List.zipWith_cons_cons]
    rw [ih (dim + 1) (by simp only [List.length_cons] at h; omega)]
    rw [List.getD_eq_getElem _ _ hdim]

/-- `adapt_index<0>` on an argument pack at least as long as the shape: the
leading extra arguments are passed through unmodified and the trailing
`shape.length` arguments are broadcast-adapted. -/
theorem adapt_index_split (shape : List Nat) :
    ∀ (args : List Nat), shape.length ≤ args.length →
      XGenerator.adapt_index shape 0 args =
        args.take (args.length - shape.length) ++
          List.zipWith (fun c s => XGenerator.adapt1 s c)
            (args.drop (args.length - shape.length)) shape := by
  intro args
  induction args with
  | nil =>
    intro h
    simp [XGenerator.adapt_index]
  | cons a args ih =>
    intro h
    by_cases hgt : shape.length ≤ args.length
    · have hcond : shape.length < args.length + 1 := by omega
      rw [show XGenerator.adapt_index shape 0 (a :: args) =
            a :: XGenerator.adapt_index shape 0 args from by
          rw [XGenerator.adapt_index, if_pos hcond]]
      rw [ih hgt]
      have hk : (a :: args).length - shape.length =
          (args.length - shape.length) + 1 := by
        simp only [List.length_cons]
        omega
      rw [hk, List.take_succ_cons, List.drop_succ_cons, List.cons_append]
    · have hk : (a :: args).length - shape.length = 0 := by
        simp only [List.length_cons]
        omega
      rw [hk, List.take_zero, List.drop_zero, List.nil_append]
      have hcore := adapt_index_core shape (a :: args) 0
        (by simp only [List.length_cons] at h ⊢; omega)
      simpa using hcore

/-- Claim C1 (amended): for an argument pack longer than `dimension()`,
`operator()` does not drop the extra leading coordinates — it passes them to
the functor unchanged; the functor is invoked on the full pack in which only
the trailing `dimension()` coordinates have been broadcast-adapted. -/
theorem op_with_extra_leading {α : Type} (g : XGenerator α) (args : List Nat)
    (h : g.dimension ≤ args.length) :
    g.op args =
      g.f (args.take (args.length - g.dimension) ++
        XGenerator.adapt_index g.shape 0
          (args.drop (args.length - g.dimension))) := by
  unfold XGenerator.op XGenerator.dimension at *
  rw [adapt_index_split g.shape args h]
  congr 1
  have hlen : 0 + (args.drop (args.length - g.shape.length)).length ≤
      g.shape.length := by
    simp only [List.length_drop, Nat.zero_add]
    omega
  rw [adapt_index_core _ _ 0 hlen, List.drop_zero]

/-- Claim C1 witness: the amended statement at shape `(3,1,4)` with the
four-coordinate call `(9,2,5,3)`. -/
theorem op_with_extra_leading_witness :
    gen314.op [9, 2, 5, 3] =
      gen314.f ([9, 2, 5, 3].take ([9, 2, 5, 3].length - gen314.dimension) ++
        XGenerator.adapt_index gen314.shape 0
          ([9, 2, 5, 3].drop ([9, 2, 5, 3].length - gen314.dimension))) :=
  op_with_extra_leading gen314 [9, 2, 5, 3] (by decide)

/-- Claim C1 counterexample: a generator of shape `(1)` whose functor returns
the number of coordinates it received.  `operator()(5, 0)` hands the functor
both coordinates (result 2), not only the trailing `dimension()`-entry
adapted list (which would give 1): the extra leading coordinate is not
dropped. -/
theorem op_truncation_cex :
    ¬ (genArgCount.op [5, 0] =
        genArgCount.f (XGenerator.adapt_index genArgCount.shape 0
          ([5, 0].drop ([5, 0].length - genArgCount.dimension)))) := by
  decide

/-- Claim C2: among the trailing `dimension()` coordinates, the coordinate
aligned with dimension `d` is rewritten to 0 exactly when `shape[d] == 1` and
the coordinate is at least 1, every other coordinate (including the extra
leading ones) passes through unchanged, and on shape `(3,1,4)` with functor
`f(i,j,k) = i*100 + k` the call `operator()(2,5,3)` returns `f(2,0,3) = 203`. -/
theorem adapt_index_broadcast_rule (shape args : List Nat)
    (h : shape.length ≤ args.length) :
    ((∀ d, d < shape.length →
        (XGenerator.adapt_index shape 0 args).getD
            (args.length - shape.length + d) 0 =
          if shape.getD d 0 = 1 ∧
              1 ≤ args.getD (args.length - shape.length + d) 0
          then 0 else args.getD (args.length - shape.length + d) 0) ∧
      (∀ i, i < args.length - shape.length →
        (XGenerator.adapt_index shape 0 args).getD i 0 = args.getD i 0)) ∧
      gen314.op [2, 5, 3] = 203 := by
  refine ⟨⟨?_, ?_⟩, by decide⟩
  · intro d hd
    rw [adapt_index_split shape args h]
    have htl : (args.take (args.length - shape.length)).length =
        args.length - shape.length := by
      rw [List.length_take]
      omega
    rw [List.getD_append_right _ _ _ _ (by omega)]
    rw [htl]
    have hidx : args.length - shape.length + d - (args.length - shape.length) = d := by
      omega
    rw [hidx]
    have hd1 : d < (args.drop (args.length - shape.length)).length := by
      simp only [List.length_drop]
      omega
    rw [getD_zipWith_my _ _ _ _ _ 0 0 hd1 hd]
    rw [getD_drop_my]
    exact adapt1_eq _ _
  · intro i hi
    rw [adapt_index_split shape args h]
    rw [List.getD_append _ _ _ _ (by rw [List.length_take]; omega)]
    exact getD_take_my args _ i 0 hi

/-- Claim C2 witness: the characterization applied at shape `(3,1,4)` and
argument pack `(2,5,3)`: the middle coordinate 5 is rewritten to 0 (extent 1),
the first coordinate 2 passes through, and the access returns 203. -/
theorem adapt_index_broadcast_rule_witness :
    (XGenerator.adapt_index [3, 1, 4] 0 [2, 5, 3]).getD 1 0 = 0 ∧
      (XGenerator.adapt_index [3, 1, 4] 0 [2, 5, 3]).getD 0 0 = 2 ∧
      gen314.op [2, 5, 3] = 203 := by
  have h := adapt_index_broadcast_rule [3, 1, 4] [2, 5, 3] (by decide)
  refine ⟨?_, ?_, h.2⟩
  · exact (h.1.1 1 (by decide)).trans (by decide)
  · exact (h.1.1 0 (by decide)).trans (by decide)

/-! ### Helper lemmas about the compute_shape loop -/

theorem getD_set_ne_my {α : Type} (l : List α) (i m : Nat) (a d : α)
    (h : i ≠ m) : (l.set i a).getD m d = l.getD m d := by
  induction l generalizing i m with
  | nil => simp
  | cons b t ih =>
    cases i with
    | zero =>
      cases m with
      | zero => omega
      | succ m => simp
    | succ i =>
      cases m with
      | zero => simp
      | succ m =>
        simp only [List.set_cons_succ, List.getD_cons_succ]
        exact ih i m (by omega)

theorem getD_replicate_my {α : Type} (d : α) (n m : Nat) :
    (List.replicate n d).getD m d = d := by
  induction n generalizing m with
  | zero => simp
  | succ n ih =>
    cases m with
    | zero => simp [List.replicate_succ]
    | succ m => simp [List.replicate_succ, List.getD_cons_succ, ih]

/-- The cumulative effect on the output shape of the value branch of the
`compute_shape` loop over a run of non-negative entries: each entry `p[t]` is
written (as `toNat`) to slot `j + t`. -/
def setSeg (sh : List (Option Nat)) (j : Nat) : List Int → List (Option Nat)
  | [] => sh
  | d :: rest => setSeg (sh.set j (some d.toNat)) (j + 1) rest

theorem setSeg_getD_outside :
    ∀ (p : List Int) (sh : List (Option Nat)) (j m : Nat),
      m < j ∨ j + p.length ≤ m →
      (setSeg sh j p).getD m none = sh.getD m none := by
  intro p
  induction p with
  | nil => intro sh j m _; rfl
  | cons d p ih =>
    intro sh j m h
    simp only [List.length_cons] at h
    rw [setSeg]
    rw [ih _ (j + 1) m (by omega)]
    exact getD_set_ne_my sh j m _ _ (by omega)

/-- Stepping the `compute_shape` loop over a run of non-negative entries:
the output slots are filled, the accumulator multiplies through the run and
`neg_idx` is untouched. -/
theorem csLoop_nonneg :
    ∀ (p : List Int), (∀ z ∈ p, 0 ≤ z) →
      ∀ (rest : List Int) (j : Nat) (sh : List (Option Nat)) (acc : Int)
        (ni : Nat),
        csLoop (p ++ rest) j sh acc ni =
          csLoop rest (j + p.length) (setSeg sh j p) (acc * p.prod) ni := by
  intro p
  induction p with
  | nil =>
    intro _ rest j sh acc ni
    simp [setSeg]
  | cons d p ih =>
    intro hp rest j sh acc ni
    have hd : (0 : Int) ≤ d := hp d (List.mem_cons_self d p)
    have hstep : csLoop (d :: (p ++ rest)) j sh acc ni =
        csLoop (p ++ rest) (j + 1) (sh.set j (some d.toNat)) (acc * d) ni := by
      simp only [csLoop]
      rw [if_neg (by omega)]
    rw [List.cons_append, hstep,
      ih (fun z hz => hp z (List.mem_cons_of_mem d hz)) rest (j + 1) _ _ ni]
    simp only [setSeg, List.length_cons, List.prod_cons]
    rw [show j + 1 + p.length = j + (p.length + 1) from by omega,
      show acc * d * p.prod = acc * (d * p.prod) from by ring]

/-- Stepping the `compute_shape` loop over the sentinel `-1` while `neg_idx`
is still 0: the assertion passes, `neg_idx` becomes the current position. -/
theorem csLoop_placeholder (rest : List Int) (j : Nat)
    (sh : List (Option Nat)) (acc : Int) :
    csLoop (-1 :: rest) j sh acc 0 =
      csLoop rest (j + 1) sh (acc * -1) j := by
  simp only [csLoop]
  rw [if_pos (by norm_num), if_pos ⟨trivial, trivial⟩]

/-- Stepping the `compute_shape` loop onto a negative entry for which the
asserted condition `dim == -1 && !neg_idx` is false: the assertion fires. -/
theorem csLoop_assert_fail (y : Int) (r : List Int) (j : Nat)
    (sh : List (Option Nat)) (acc : Int) (ni : Nat) (hy : y < 0)
    (hbad : ¬(y = -1 ∧ ni = 0)) :
    csLoop (y :: r) j sh acc ni = none := by
  simp only [csLoop]
  rw [if_pos hy, if_neg hbad]

/-- Claim C4: for a generator of total size `N` and a positive `k` dividing
`N`, `reshape({-1, k})` yields a view over the generator whose shape is
`(N / k, k)`: the placeholder extent is `size()` divided by the absolute
value of the accumulated product. -/
theorem reshape_infer_placeholder {α : Type} (g : XGenerator α) (k : Nat)
    (hk : 0 < k) (_hdvd : k ∣ g.size) :
    g.reshape [-1, (k : Int)] =
      some { gen := g, view_shape := [some (g.size / k), some k] } := by
  have hknneg : ¬ ((k : Int) < 0) := by omega
  have hloop : csLoop [-1, (k : Int)] 0 [none, none] 1 0 =
      some ([none, some k], 1 * -1 * (k : Int), 0) := by
    rw [show ([-1, (k : Int)] : List Int) = -1 :: [(k : Int)] from rfl,
      csLoop_placeholder]
    simp only [csLoop]
    rw [if_neg hknneg]
    rfl
  unfold XGenerator.reshape compute_shape
  rw [show List.replicate ([-1, (k : Int)] : List Int).length (none : Option Nat)
      = [none, none] from rfl]
  rw [hloop]
  simp only [Option.map_some']
  rw [if_pos (by omega : (1 : Int) * -1 * (k : Int) < 0)]
  rw [show ((1 : Int) * -1 * (k : Int)).natAbs = k from by
    rw [show (1 : Int) * -1 * (k : Int) = -(k : Int) from by ring]
    simp]
  rfl

/-- Claim C4 witness: shape `(2, 3)` has size 6, and `reshape({-1, 1})`
yields shape `(6, 1)`. -/
theorem reshape_infer_placeholder_witness :
    gen23.reshape [-1, 1] =
      some { gen := gen23, view_shape := [some 6, some 1] } :=
  reshape_infer_placeholder gen23 1 (by decide) (by decide)

/-- Claim C5 counterexample: the new shape `{-1, -1}` contains two
placeholders, yet `compute_shape` does not fail: because the first
placeholder sits at index 0, `neg_idx` remains 0 and the asserted condition
`dim == -1 && !neg_idx` also holds at the second placeholder.  The result is
a shape whose two slots were never assigned. -/
theorem compute_shape_double_placeholder_cex :
    compute_shape 6 [-1, -1] = some [none, none] ∧
      compute_shape 6 [-1, -1] ≠ none := by
  constructor
  · rfl
  · decide

/-- Claim C5 (amended): the assertion fires for a second placeholder only
when an earlier placeholder was recorded at a nonzero index — a run of
non-negative extents, a placeholder after it, then any later negative entry
is fatal — and it fires for any negative value other than the sentinel `-1`
reached by the scan; but when the first placeholder is at index 0 the
sentinel check `!neg_idx` cannot detect a duplicate placeholder. -/
theorem compute_shape_assert_conditions :
    (∀ (sz : Nat) (p q r : List Int) (y : Int), p ≠ [] →
        (∀ z ∈ p, 0 ≤ z) → (∀ z ∈ q, 0 ≤ z) → y < 0 →
        compute_shape sz (p ++ -1 :: (q ++ y :: r)) = none) ∧
      (∀ (sz : Nat) (p : List Int) (y : Int) (r : List Int),
        (∀ z ∈ p, 0 ≤ z) → y < 0 → y ≠ -1 →
        compute_shape sz (p ++ y :: r) = none) := by
  constructor
  · intro sz p q r y hpn hp hq hy
    unfold compute_shape
    rw [csLoop_nonneg p hp, csLoop_placeholder, csLoop_nonneg q hq,
      csLoop_assert_fail y r _ _ _ _ hy ?_]
    · rfl
    · rintro ⟨-, h0⟩
      exact hpn (List.length_eq_zero.mp (by omega))
  · intro sz p y r hp hy hy1
    unfold compute_shape
    rw [csLoop_nonneg p hp,
      csLoop_assert_fail y r _ _ _ _ hy (fun hc => hy1 hc.1)]
    rfl

/-- Claim C5 witness: `{2, -1, -1}` (first placeholder at nonzero index) is
fatal, as is the non-sentinel negative `{-2}`. -/
theorem compute_shape_assert_conditions_witness :
    compute_shape 6 ([2] ++ -1 :: ([] ++ -1 :: [])) = none ∧
      compute_shape 6 ([] ++ -2 :: []) = none := by
  constructor
  · exact compute_shape_assert_conditions.1 6 [2] [] [] (-1) (by decide)
      (by decide) (by decide) (by decide)
  · exact compute_shape_assert_conditions.2 6 [] (-2) [] (by decide)
      (by decide) (by decide)

/-- Claim C10: with a placeholder and an explicit extent 0 in the requested
shape, the accumulated product ends at 0, so the inference branch (which
requires a strictly negative accumulator) is not taken and the placeholder
slot of the resulting shape is never assigned (`none` in the model, an
uninitialized element in the source). -/
theorem compute_shape_zero_extent_skips_inference (sz : Nat) (p q : List Int)
    (hp : ∀ z ∈ p, 0 ≤ z) (hq : ∀ z ∈ q, 0 ≤ z)
    (h0 : (0 : Int) ∈ p ∨ (0 : Int) ∈ q) :
    (csLoop (p ++ -1 :: q) 0
        (List.replicate (p ++ -1 :: q).length none) 1 0).map
        (fun t => (t.2.1, t.2.2)) = some (0, p.length) ∧
      (compute_shape sz (p ++ -1 :: q)).map
        (fun sh => sh.getD p.length none) = some none := by
  have hacc : (1 : Int) * p.prod * -1 * q.prod = 0 := by
    rcases h0 with h | h
    · rw [List.prod_eq_zero h]; ring
    · rw [List.prod_eq_zero h]; ring
  have hq' := csLoop_nonneg q hq [] (0 + p.length + 1)
    (setSeg (List.replicate (p ++ -1 :: q).length none) 0 p)
    (1 * p.prod * -1) (0 + p.length)
  simp only [List.append_nil, csLoop] at hq'
  have hloop : csLoop (p ++ -1 :: q) 0
      (List.replicate (p ++ -1 :: q).length none) 1 0 =
      some (setSeg (setSeg (List.replicate (p ++ -1 :: q).length none) 0 p)
          (0 + p.length + 1) q,
        1 * p.prod * -1 * q.prod, 0 + p.length) := by
    rw [csLoop_nonneg p hp, csLoop_placeholder, hq']
  constructor
  · rw [hloop]
    simp only [Option.map_some']
    rw [hacc]
    simp
  · unfold compute_shape
    rw [hloop]
    simp only [Option.map_some']
    rw [if_neg (by rw [hacc]; exact lt_irrefl 0)]
    congr 1
    rw [setSeg_getD_outside q _ _ _ (Or.inl (by omega)),
      setSeg_getD_outside p _ _ _ (Or.inr (by omega))]
    exact getD_replicate_my none _ _

/-- Claim C10 witness: shape request `{2, -1, 0}`: the accumulator ends at 0,
`neg_idx` is 1, and the placeholder slot of the result is unassigned. -/
theorem compute_shape_zero_extent_skips_inference_witness :
    (csLoop ([2] ++ -1 :: [0]) 0
        (List.replicate ([2] ++ -1 :: [0] : List Int).length none) 1 0).map
        (fun t => (t.2.1, t.2.2)) = some (0, 1) ∧
      (compute_shape 6 ([2] ++ -1 :: [0])).map
        (fun sh => sh.getD 1 none) = some none :=
  compute_shape_zero_extent_skips_inference 6 [2] [0] (by decide) (by decide)
    (Or.inr (by decide))

/-- The boolean bounds check used by `at`, characterised as a proposition. -/
theorem check_access_iff (shape args : List Nat) :
    XGenerator.check_access shape args = true ↔
      shape.length ≤ args.length ∧
        ∀ d, d < shape.length →
          (args.drop (args.length - shape.length)).getD d 0 < shape.getD d 0 ∨
            shape.getD d 0 = 1 := by
  unfold XGenerator.check_access
  exact decide_eq_true_iff

/-- Claim C3: `at(...)` fails with an out-of-range error for every call with
fewer coordinates than `dimension()`, and for every call in which the
coordinate aligned with a dimension `d` of extent different from 1 is
`>= shape[d]`; otherwise it returns exactly the checked-with-adaptation
(`operator()`) value — and, all operations being pure, the generator's state
is unchanged. -/
theorem at_access_spec {α : Type} (g : XGenerator α) (args : List Nat) :
    (args.length < g.dimension → g.at_access args = none) ∧
      (∀ d, d < g.dimension → g.shape.getD d 0 ≠ 1 →
        g.shape.getD d 0 ≤ (args.drop (args.length - g.dimension)).getD d 0 →
        g.at_access args = none) ∧
      (g.dimension ≤ args.length →
        (∀ d, d < g.dimension →
          (args.drop (args.length - g.dimension)).getD d 0 < g.shape.getD d 0 ∨
            g.shape.getD d 0 = 1) →
        g.at_access args = some (g.op args)) := by
  have hdim : g.dimension = g.shape.length := rfl
  refine ⟨?_, ?_, ?_⟩
  · intro hlt
    rw [hdim] at hlt
    unfold XGenerator.at_access
    rw [if_neg ?_]
    rw [check_access_iff]
    rintro ⟨h1, -⟩
    omega
  · intro d hd hne hge
    rw [hdim] at hd hge
    unfold XGenerator.at_access
    rw [if_neg ?_]
    rw [check_access_iff]
    rintro ⟨-, hall⟩
    rcases hall d hd with hlt | he
    · omega
    · exact hne he
  · intro hle hall
    rw [hdim] at hle hall
    unfold XGenerator.at_access
    rw [if_pos ?_]
    rw [check_access_iff]
    exact ⟨hle, hall⟩

/-- Claim C3 witness: on shape `(2, 3)`, `at(2, 0)` fails (first coordinate
out of bounds at extent 2), `at(0)` fails (too few coordinates), and
`at(1, 2)` returns the `operator()` value. -/
theorem at_access_spec_witness :
    gen23.at_access [2, 0] = none ∧
      gen23.at_access [0] = none ∧
      gen23.at_access [1, 2] = some (gen23.op [1, 2]) := by
  refine ⟨?_, ?_, ?_⟩
  · exact (at_access_spec gen23 [2, 0]).2.1 0 (by decide) (by decide) (by decide)
  · exact (at_access_spec gen23 [0]).1 (by decide)
  · exact (at_access_spec gen23 [1, 2]).2.2 (by decide) (by decide)

/-- Claim C6: `size()` is the product of the extents of the stored shape
(1 for a zero-dimensional shape, 0 if any extent is 0) and `dimension()` is
the number of extents; every access operation is a pure function of the
generator value, so these invariants hold after construction and after every
access. -/
theorem size_dimension_invariant {α : Type} (g : XGenerator α) :
    g.size = g.shape.prod ∧
      g.dimension = g.shape.length ∧
      (g.shape = [] → g.size = 1) ∧
      (0 ∈ g.shape → g.size = 0) := by
  have hs : g.size = g.shape.prod := by
    unfold XGenerator.size XGenerator.compute_size
    exact List.prod_eq_foldl.symm
  refine ⟨hs, rfl, ?_, ?_⟩
  · intro he
    rw [hs, he]
    rfl
  · intro h0
    rw [hs]
    exact List.prod_eq_zero h0

/-- Claim C6 witness: size is the shape product on shape `(2, 3)`, 1 on the
zero-dimensional shape, and 0 when some extent is 0. -/
theorem size_dimension_invariant_witness :
    gen23.size = gen23.shape.prod ∧
      genScalar.size = 1 ∧
      genZeroExtent.size = 0 :=
  ⟨(size_dimension_invariant gen23).1,
    (size_dimension_invariant genScalar).2.2.1 rfl,
    (size_dimension_invariant genZeroExtent).2.2.2 (by decide)⟩

/-- Claim C9: for a target shape of rank at least `dimension()`,
`stepper_begin` and `stepper_end` construct an index-based stepper bound to
this generator with offset `target_shape.size() - dimension()`, and
`stepper_end` additionally sets the end flag. -/
theorem stepper_construction {α : Type} (g : XGenerator α)
    (tshape : List Nat) (l : LayoutType) (_h : g.dimension ≤ tshape.length) :
    (g.stepper_begin tshape).offset = tshape.length - g.dimension ∧
      (g.stepper_begin tshape).is_end = false ∧
      (g.stepper_begin tshape).gen = g ∧
      (g.stepper_end tshape l).offset = tshape.length - g.dimension ∧
      (g.stepper_end tshape l).is_end = true ∧
      (g.stepper_end tshape l).gen = g :=
  ⟨rfl, rfl, rfl, rfl, rfl, rfl⟩

/-- Claim C9 witness: the stepper construction on generator shape `(2, 3)`
broadcast into a rank-3 target shape. -/
theorem stepper_construction_witness :
    (gen23.stepper_begin [5, 2, 3]).offset =
        [5, 2, 3].length - gen23.dimension ∧
      (gen23.stepper_begin [5, 2, 3]).is_end = false ∧
      (gen23.stepper_begin [5, 2, 3]).gen = gen23 ∧
      (gen23.stepper_end [5, 2, 3] LayoutType.row_major).offset =
        [5, 2, 3].length - gen23.dimension ∧
      (gen23.stepper_end [5, 2, 3] LayoutType.row_major).is_end = true ∧
      (gen23.stepper_end [5, 2, 3] LayoutType.row_major).gen = gen23 :=
  stepper_construction gen23 [5, 2, 3] LayoutType.row_major (by decide)
